import Mathlib

/-!
Shallow embedding of the generic CRUD layer of the repository:
the `BaseRepository` (src/unnamed/part_000) and `BaseService`
(src/src/main.ts, second document) generic classes, instantiated at the
concrete `User` entity (src/unnamed/part_001), which extends `BaseEntity`
(src/src/modules/base/base.entity.ts).

The persistence layer (TypeORM's `EntityManager`) is an external
collaborator; its operations are modelled from the spec's storage
interface (spec §6: find-many-with-filter, find-one-with-filter, insert,
update-by-filter, soft-delete-by-filter, restore-by-filter) together with
the data-model invariant of spec §3 (records with non-null `deletedAt`
are excluded from default lookups). Timestamps are modelled as natural
numbers drawn from a logical clock `now` carried by the store.
-/

/-- The single domain error kind, parameterized by the entity's logical
name (src/common/exceptions/exceptions, `EntityNotFound`). -/
inductive DbError where
  | entityNotFound (entityName : String)
deriving DecidableEq

/-- The `User` entity (src/unnamed/part_001): the `BaseEntity` columns
`id`, `createdAt`, `updatedAt`, `deletedAt` (all nullable in TS) plus the
declared columns `email`, `password`, `name`. -/
structure User where
  id : Option Nat := none
  createdAt : Option Nat := none
  updatedAt : Option Nat := none
  deletedAt : Option Nat := none
  email : String
  password : String
  name : String
deriving DecidableEq

/-- A record is visible to default lookups exactly when it is not
soft-deleted (spec §3 invariant). -/
def User.visibleInDefaultScope (r : User) : Bool :=
  r.deletedAt.isNone

/-- TypeORM `FindOptionsWhere<User>`: a partial equality filter on the
entity's columns; an omitted field matches anything. -/
structure FindOptionsWhere where
  id : Option Nat := none
  email : Option String := none
  password : Option String := none
  name : Option String := none
deriving DecidableEq

/-- A record satisfies the filter when every specified field is equal. -/
def FindOptionsWhere.matches (w : FindOptionsWhere) (r : User) : Bool :=
  (match w.id with | none => true | some v => r.id == some v) &&
  (match w.email with | none => true | some v => r.email == v) &&
  (match w.password with | none => true | some v => r.password == v) &&
  (match w.name with | none => true | some v => r.name == v)

/-- TypeORM `FindOneOptions<User>` as used by this code base: a `where`
filter (the `relations` option never affects a single-entity model and is
omitted). -/
structure FindOneOptions where
  whereC : FindOptionsWhere
deriving DecidableEq

/-- TypeORM `FindManyOptions<User>` as used by this code base: an optional
`where` filter. -/
structure FindManyOptions where
  whereC : Option FindOptionsWhere := none
deriving DecidableEq

/-- TypeORM `QueryDeepPartialEntity<User>` as used by this code base: a
partial patch of the entity's declared columns. -/
structure QueryDeepPartialEntity where
  email : Option String := none
  password : Option String := none
  name : Option String := none
deriving DecidableEq

/-- The persistent collection: rows in insertion order, the next identity
to assign, and a logical clock supplying timestamps. -/
structure Store where
  rows : List User
  nextId : Nat
  now : Nat
deriving DecidableEq

/-- Store well-formedness: every assigned identity is below `nextId`, so a
freshly assigned identity collides with no existing row. Maintained by the
modelled insert, which assigns `nextId` and then increments it. -/
def Store.wf (s : Store) : Bool :=
  s.rows.all (fun r => r.id.all (fun i => i < s.nextId))

namespace EntityManager

/-- A record is returned by a default-scope lookup when it is visible
(not soft-deleted) and satisfies the filter. -/
def matchesInScope (w : FindOptionsWhere) (r : User) : Bool :=
  r.visibleInDefaultScope && w.matches r

/-- Modelled from the spec: find-one-with-filter (spec §6), returning the
first visible matching record or an absent result. -/
def findOne (s : Store) (o : FindOneOptions) : Option User :=
  s.rows.find? (matchesInScope o.whereC)

/-- Modelled from the spec: find-many-with-filter (spec §6); default
options exclude soft-deleted records (spec §3, §4.1). -/
def find (s : Store) (o : FindManyOptions) : List User :=
  s.rows.filter (fun r =>
    r.visibleInDefaultScope &&
    (match o.whereC with | none => true | some w => w.matches r))

/-- Modelled from the spec: insert (spec §6, §4.1 `create`): persists a new
record, assigning the identity and the creation/update timestamps, and
returns the persisted value. -/
def save (s : Store) (data : User) : User × Store :=
  let saved : User :=
    { data with
      id := some s.nextId
      createdAt := some s.now
      updatedAt := some s.now }
  (saved, { rows := s.rows ++ [saved], nextId := s.nextId + 1, now := s.now + 1 })

/-- Applying a partial patch to a row sets each specified column and
refreshes `updatedAt` (spec §3: updated-at is refreshed on every
mutation). -/
def applyPatch (p : QueryDeepPartialEntity) (now : Nat) (r : User) : User :=
  { r with
    email := p.email.getD r.email
    password := p.password.getD r.password
    name := p.name.getD r.name
    updatedAt := some now }

/-- Modelled from the spec: update-by-filter (spec §6, §4.1 `update`):
applies the patch to all matching storage rows and reports the affected
count. -/
def update (s : Store) (w : FindOptionsWhere) (p : QueryDeepPartialEntity) :
    Nat × Store :=
  (s.rows.countP w.matches,
   { s with
     rows := s.rows.map (fun r => if w.matches r then applyPatch p s.now r else r)
     now := s.now + 1 })

/-- Modelled from the spec: soft-delete-by-filter (spec §6, §4.1
`softDelete`, §8): sets `deletedAt` to the current time for the matching
rows — the filter excludes already soft-deleted rows by default — and
returns the count affected. -/
def softDelete (s : Store) (w : FindOptionsWhere) : Nat × Store :=
  (s.rows.countP (matchesInScope w),
   { s with
     rows := s.rows.map (fun r =>
        if matchesInScope w r then { r with deletedAt := some s.now } else r)
     now := s.now + 1 })

/-- A restore targets exactly the soft-deleted matching rows (spec §8: a
restore filter expects `deletedAt` non-null). -/
def restoreMatches (w : FindOptionsWhere) (r : User) : Bool :=
  r.deletedAt.isSome && w.matches r

/-- Modelled from the spec: restore-by-filter (spec §6, §4.1 `restore`):
clears `deletedAt` for the matching soft-deleted rows and returns the
count affected. -/
def restore (s : Store) (w : FindOptionsWhere) : Nat × Store :=
  (s.rows.countP (restoreMatches w),
   { s with
     rows := s.rows.map (fun r =>
        if restoreMatches w r then { r with deletedAt := none } else r)
     now := s.now + 1 })

end EntityManager

namespace BaseRepository

/-- `BaseRepository.create` (part_000 line 55): delegates to the manager's
save. -/
def create (s : Store) (data : User) : User × Store :=
  EntityManager.save s data

/-- `BaseRepository.find` (part_000 line 84). -/
def find (s : Store) (options : FindManyOptions) : List User :=
  EntityManager.find s options

/-- `BaseRepository.findOne` (part_000 line 94): returns the first match
or null, never an error. -/
def findOne (s : Store) (filter : FindOneOptions) : Option User :=
  EntityManager.findOne s filter

/-- A JavaScript Promise holding its resolved value. In `findOrCreate`
the source reads `const entity = this.findOne(where)` without `await`, so
`entity` is a `Promise`, not a record. -/
structure Promise (α : Type) where
  value : α

/-- In JavaScript every object — in particular every `Promise` — is
truthy, regardless of the value it resolves to. -/
def Promise.isTruthy {α : Type} (_ : Promise α) : Bool :=
  true

/-- `BaseRepository.findOrCreate` (part_000 lines 67-76), translated with
the source's missing `await`: the truthiness test is applied to the
promise itself, the promise is returned, and the caller's `await` yields
the resolved `findOne` value (possibly null). The creation branch is as
written in the source. -/
def findOrCreate (s : Store) (w : FindOneOptions) (data : User) :
    Option User × Store :=
  let entity : Promise (Option User) := ⟨findOne s w⟩
  if entity.isTruthy then (entity.value, s)
  else
    let res := create s data
    (some res.1, res.2)

/-- The argument type of `checkEntityExist` (part_000 line 193):
`number | null | Entity`. -/
inductive CheckData where
  | num (n : Nat)
  | null
  | entity (e : User)
deriving DecidableEq

/-- A nullable find result as a `checkEntityExist` argument. -/
def CheckData.ofFindResult : Option User → CheckData
  | Option.none => CheckData.null
  | some e => CheckData.entity e

/-- `BaseRepository.checkEntityExist` (part_000 lines 193-195): throws
`EntityNotFound(entityName)` when the datum is `0` or `null`. -/
def checkEntityExist (entityName : String) (data : CheckData) :
    Except DbError Unit :=
  match data with
  | CheckData.num 0 => Except.error (DbError.entityNotFound entityName)
  | CheckData.null => Except.error (DbError.entityNotFound entityName)
  | _ => Except.ok ()

/-- `BaseRepository.findOneOrFail` (part_000 lines 105-109): finds, checks
existence, and returns the entity; the `null` case is rejected by the
check. -/
def findOneOrFail (entityName : String) (s : Store) (filter : FindOneOptions) :
    Except DbError User :=
  let entity := findOne s filter
  match checkEntityExist entityName (CheckData.ofFindResult entity), entity with
  | Except.error e, _ => Except.error e
  | Except.ok _, some r => Except.ok r
  | Except.ok _, Option.none => Except.error (DbError.entityNotFound entityName)

/-- `BaseRepository.update` (part_000 lines 119-126): applies the patch to
all matching rows, then re-reads with the same `where` (default scope) and
returns the nullable result. -/
def update (s : Store) (w : FindOptionsWhere) (data : QueryDeepPartialEntity) :
    Option User × Store :=
  let s' := (EntityManager.update s w data).2
  (EntityManager.findOne s' ⟨w⟩, s')

/-- `BaseRepository.updateOrFail` (part_000 lines 137-145): as `update`,
but the existence check rejects a null re-read. -/
def updateOrFail (entityName : String) (s : Store) (w : FindOptionsWhere)
    (data : QueryDeepPartialEntity) : Except DbError User × Store :=
  let res := update s w data
  match checkEntityExist entityName (CheckData.ofFindResult res.1), res.1 with
  | Except.error e, _ => (Except.error e, res.2)
  | Except.ok _, some r => (Except.ok r, res.2)
  | Except.ok _, Option.none => (Except.error (DbError.entityNotFound entityName), res.2)

/-- `BaseRepository.softDelete` (part_000 lines 153-155). -/
def softDelete (s : Store) (w : FindOptionsWhere) : Nat × Store :=
  EntityManager.softDelete s w

/-- `BaseRepository.deleteOrFail` (part_000 lines 164-168): soft deletes,
rejects an affected count of zero, and returns true. -/
def deleteOrFail (entityName : String) (s : Store) (w : FindOptionsWhere) :
    Except DbError Bool × Store :=
  let res := softDelete s w
  match checkEntityExist entityName (CheckData.num res.1) with
  | Except.error e => (Except.error e, res.2)
  | Except.ok _ => (Except.ok true, res.2)

/-- `BaseRepository.restore` (part_000 lines 176-178). -/
def restore (s : Store) (w : FindOptionsWhere) : Nat × Store :=
  EntityManager.restore s w

/-- `BaseRepository.restoreOrFail` (part_000 lines 187-191): restores,
rejects an affected count of zero, and returns true. -/
def restoreOrFail (entityName : String) (s : Store) (w : FindOptionsWhere) :
    Except DbError Bool × Store :=
  let res := restore s w
  match checkEntityExist entityName (CheckData.num res.1) with
  | Except.error e => (Except.error e, res.2)
  | Except.ok _ => (Except.ok true, res.2)

end BaseRepository

namespace BaseService

/-- `BaseService.find` (main.ts line 59): pass-through. -/
def find (s : Store) (query : FindManyOptions) : List User :=
  BaseRepository.find s query

/-- `BaseService.findOneOrFail` (main.ts line 73): pass-through. -/
def findOneOrFail (entityName : String) (s : Store) (query : FindOneOptions) :
    Except DbError User :=
  BaseRepository.findOneOrFail entityName s query

/-- `BaseService.findOneByIdOrFail` (main.ts line 87): identity
convenience over `findOneOrFail`. -/
def findOneByIdOrFail (entityName : String) (s : Store) (id : Nat) :
    Except DbError User :=
  findOneOrFail entityName s ⟨{ id := some id }⟩

/-- `BaseService.findOne` (main.ts line 100): pass-through, nullable. -/
def findOne (s : Store) (query : FindOneOptions) : Option User :=
  BaseRepository.findOne s query

/-- `BaseService.create` (main.ts lines 113-116): persists via the
repository, then re-fetches by the assigned identity with the plain
(nullable) `findOne`. -/
def create (s : Store) (data : User) : Option User × Store :=
  let res := BaseRepository.create s data
  (findOne res.2 ⟨{ id := res.1.id }⟩, res.2)

/-- `BaseService.update` (main.ts lines 130-136): pass-through to
`updateOrFail`. -/
def update (entityName : String) (s : Store) (w : FindOptionsWhere)
    (data : QueryDeepPartialEntity) : Except DbError User × Store :=
  BaseRepository.updateOrFail entityName s w data

/-- `BaseService.updateById` (main.ts lines 150-160): identity convenience
over `update`. -/
def updateById (entityName : String) (s : Store) (id : Nat)
    (data : QueryDeepPartialEntity) : Except DbError User × Store :=
  update entityName s { id := some id } data

/-- `BaseService.deleteById` (main.ts lines 172-176). -/
def deleteById (entityName : String) (s : Store) (id : Nat) :
    Except DbError Bool × Store :=
  BaseRepository.deleteOrFail entityName s { id := some id }

/-- `BaseService.restoreById` (main.ts lines 188-192). -/
def restoreById (entityName : String) (s : Store) (id : Nat) :
    Except DbError Bool × Store :=
  BaseRepository.restoreOrFail entityName s { id := some id }

/-- `BaseService.count` (main.ts lines 197-200): fetches all matches and
returns the length. -/
def count (s : Store) (filter : FindOptionsWhere) : Nat :=
  (BaseRepository.find s { whereC := some filter }).length

end BaseService

/-! ### Helper lemmas -/

/-- An identity-only filter matches a record exactly when the record's
identity equals the requested one. -/
theorem matches_id_filter (v : Nat) (r : User) :
    FindOptionsWhere.matches { id := some v } r = (r.id == some v) := by
  simp [FindOptionsWhere.matches]

/-- The existence check accepts any positive affected count. -/
theorem checkEntityExist_num_pos (n : String) (a : Nat) (h : a ≠ 0) :
    BaseRepository.checkEntityExist n (BaseRepository.CheckData.num a) = Except.ok () := by
  cases a with
  | zero => exact absurd rfl h
  | succ k => rfl

/-- In a well-formed store no existing row carries the next identity. -/
theorem wf_id_ne_nextId (s : Store) (hwf : s.wf = true) (r : User)
    (hr : r ∈ s.rows) : (r.id == some s.nextId) = false := by
  have hall := List.all_eq_true.mp hwf r hr
  cases h : r.id with
  | none => rfl
  | some i =>
    rw [h] at hall
    simp only [Option.all_some] at hall
    have hi : i < s.nextId := by simpa using hall
    rw [beq_eq_false_iff_ne]
    intro hc
    have : i = s.nextId := by injection hc
    omega

/-- After an insert into a well-formed store, a default-scope lookup by
the assigned identity finds the inserted row exactly when that row is
visible. -/
theorem find?_append_saved (s : Store) (hwf : s.wf = true) (saved : User)
    (hid : saved.id = some s.nextId) :
    List.find? (EntityManager.matchesInScope { id := some s.nextId })
        (s.rows ++ [saved])
      = if saved.visibleInDefaultScope then some saved else none := by
  rw [List.find?_append]
  have hold : List.find? (EntityManager.matchesInScope { id := some s.nextId })
      s.rows = none := by
    rw [List.find?_eq_none]
    intro r hr
    simp [EntityManager.matchesInScope, matches_id_filter, wf_id_ne_nextId s hwf r hr]
  rw [hold]
  have hm : EntityManager.matchesInScope { id := some s.nextId } saved
      = saved.visibleInDefaultScope := by
    simp [EntityManager.matchesInScope, matches_id_filter, hid]
  cases hv : saved.visibleInDefaultScope <;>
    simp [List.find?, hm, hv, Option.or]

/-! ### Claims -/

/-- C1: for every filter with no matching record in the store,
`findOne` returns an explicit absent result (and never an error), while
`findOneOrFail` raises `EntityNotFound` parameterized by the entity's
name. -/
theorem claim1_findOne_absent_findOneOrFail_raises (n : String) (s : Store)
    (o : FindOneOptions)
    (h : ∀ r ∈ s.rows, EntityManager.matchesInScope o.whereC r = false) :
    BaseRepository.findOne s o = none ∧
    BaseRepository.findOneOrFail n s o
      = Except.error (DbError.entityNotFound n) := by
  have h1 : BaseRepository.findOne s o = none := by
    apply List.find?_eq_none.mpr
    intro r hr
    simp [h r hr]
  refine ⟨h1, ?_⟩
  simp [BaseRepository.findOneOrFail, h1, BaseRepository.CheckData.ofFindResult,
    BaseRepository.checkEntityExist]

/-- C1 witness: a store holding one visible record that the filter does
not match. -/
theorem claim1_witness :
    BaseRepository.findOne
        { rows := [{ id := some 1, email := "a@x.com", password := "p", name := "A" }],
          nextId := 2, now := 3 }
        ⟨{ email := some "b@y.com" }⟩ = none ∧
    BaseRepository.findOneOrFail "User"
        { rows := [{ id := some 1, email := "a@x.com", password := "p", name := "A" }],
          nextId := 2, now := 3 }
        ⟨{ email := some "b@y.com" }⟩
      = Except.error (DbError.entityNotFound "User") :=
  claim1_findOne_absent_findOneOrFail_raises "User" _ _ (by decide)

/-- C4: `findOrCreate` tests the un-awaited promise, which is always
truthy, so it returns the `findOne` result (even when that is absent),
never executes the creation path, and leaves the store unchanged. -/
theorem claim4_findOrCreate_unreachable_branch (s : Store) (w : FindOneOptions)
    (data : User) :
    BaseRepository.findOrCreate s w data = (BaseRepository.findOne s w, s) :=
  rfl

/-- C3 evaluation: on an empty store — where no record matches the filter
— `findOrCreate` returns absent and leaves the store unchanged, instead
of persisting `data` and returning it as the claim states. -/
theorem claim3_findOrCreate_no_creation_eval :
    BaseRepository.findOrCreate { rows := [], nextId := 1, now := 0 }
        ⟨{ email := some "a@x.com" }⟩
        { email := "a@x.com", password := "p", name := "A" }
      = (none, { rows := [], nextId := 1, now := 0 }) :=
  rfl

/-- C9: the Service's `count` equals the length of `find` with the same
`where` filter, which is the number of default-visible records matching
the filter. -/
theorem claim9_count_is_find_length (s : Store) (filter : FindOptionsWhere) :
    BaseService.count s filter
        = (BaseService.find s { whereC := some filter }).length ∧
    BaseService.count s filter
        = s.rows.countP (fun r => r.visibleInDefaultScope && filter.matches r) := by
  refine ⟨rfl, ?_⟩
  rw [List.countP_eq_length_filter]
  rfl

/-- C5: repository `update` applies the patch to every matching row, then
re-reads and returns the record matching `where`; an absent re-read is
returned as null at that level, while `updateOrFail` — and hence the
Service's `update` and `updateById` — raises `EntityNotFound` in that
case, and a successful re-read is returned as-is. -/
theorem claim5_update_reread_and_orfail (n : String) (s : Store)
    (w : FindOptionsWhere) (p : QueryDeepPartialEntity) :
    ((BaseRepository.update s w p).1
        = EntityManager.findOne (BaseRepository.update s w p).2 ⟨w⟩) ∧
    ((BaseRepository.update s w p).2.rows
        = s.rows.map (fun r =>
            if w.matches r then EntityManager.applyPatch p s.now r else r)) ∧
    ((BaseRepository.update s w p).1 = none →
        (BaseRepository.updateOrFail n s w p).1
            = Except.error (DbError.entityNotFound n) ∧
        (BaseService.update n s w p).1
            = Except.error (DbError.entityNotFound n)) ∧
    (∀ e, (BaseRepository.update s w p).1 = some e →
        (BaseService.update n s w p).1 = Except.ok e) ∧
    (∀ id, BaseService.updateById n s id p
        = BaseService.update n s { id := some id } p) := by
  refine ⟨rfl, rfl, ?_, ?_, fun _ => rfl⟩
  · intro h
    constructor <;>
      simp [BaseService.update, BaseRepository.updateOrFail, h,
        BaseRepository.CheckData.ofFindResult, BaseRepository.checkEntityExist]
  · intro e he
    simp [BaseService.update, BaseRepository.updateOrFail, he,
      BaseRepository.CheckData.ofFindResult, BaseRepository.checkEntityExist]

/-- C5 witness: the Service's `update({id:1}, {name:"B"})` on a store with
no record of identity 1 raises `EntityNotFound`. -/
theorem claim5_witness :
    (BaseService.update "User" { rows := [], nextId := 1, now := 0 }
        { id := some 1 } { name := some "B" }).1
      = Except.error (DbError.entityNotFound "User") :=
  ((claim5_update_reread_and_orfail "User" { rows := [], nextId := 1, now := 0 }
      { id := some 1 } { name := some "B" }).2.2.1 rfl).2

/-- C10: the Service's `create` re-fetches with the plain nullable
`findOne`: when the inserted row is not default-visible (its `deletedAt`
is set), the re-read by the assigned identity finds nothing and `create`
resolves to null — it cannot raise `EntityNotFound`, as its result type
here is an option, not an `Except`. -/
theorem claim10_create_resolves_null (s : Store) (data : User) (t : Nat)
    (hwf : s.wf = true) (hdel : data.deletedAt = some t) :
    (BaseService.create s data).1 = none := by
  have h := find?_append_saved s hwf
      { data with
        id := some s.nextId
        createdAt := some s.now
        updatedAt := some s.now } rfl
  have hv : ({ data with
      id := some s.nextId
      createdAt := some s.now
      updatedAt := some s.now } : User).visibleInDefaultScope = false := by
    simp [User.visibleInDefaultScope, hdel]
  rw [hv] at h
  simp only [if_neg Bool.false_ne_true] at h
  simpa [BaseService.create, BaseRepository.create, EntityManager.save,
    BaseService.findOne, BaseRepository.findOne, EntityManager.findOne] using h

/-- C10 witness: creating a record that arrives already soft-deleted makes
`create` resolve to null. -/
theorem claim10_witness :
    (BaseService.create { rows := [], nextId := 1, now := 0 }
        { email := "a@x.com", password := "p", name := "A",
          deletedAt := some 5 }).1 = none :=
  claim10_create_resolves_null { rows := [], nextId := 1, now := 0 }
    { email := "a@x.com", password := "p", name := "A", deletedAt := some 5 }
    5 (by decide) rfl

/-- C2: a record created through the Service can be re-fetched with
`findOneByIdOrFail` at its assigned identity; the returned record agrees
with the created one on every field other than the server-assigned
timestamps, and both timestamps are non-null. -/
theorem claim2_create_roundtrip (n : String) (s : Store) (data : User)
    (hwf : s.wf = true) (hdel : data.deletedAt = none) :
    ∃ e, (BaseService.create s data).1 = some e ∧
      (∀ i, e.id = some i →
          BaseService.findOneByIdOrFail n (BaseService.create s data).2 i
            = Except.ok e) ∧
      e.email = data.email ∧ e.password = data.password ∧ e.name = data.name ∧
      e.deletedAt = data.deletedAt ∧
      e.createdAt.isSome = true ∧ e.updatedAt.isSome = true := by
  have h := find?_append_saved s hwf
      { data with
        id := some s.nextId
        createdAt := some s.now
        updatedAt := some s.now } rfl
  have hv : ({ data with
      id := some s.nextId
      createdAt := some s.now
      updatedAt := some s.now } : User).visibleInDefaultScope = true := by
    simp [User.visibleInDefaultScope, hdel]
  rw [hv, if_pos rfl] at h
  refine ⟨{ data with
      id := some s.nextId
      createdAt := some s.now
      updatedAt := some s.now }, ?_, ?_, rfl, rfl, rfl, rfl, rfl, rfl⟩
  · simpa [BaseService.create, BaseRepository.create, EntityManager.save,
      BaseService.findOne, BaseRepository.findOne, EntityManager.findOne] using h
  · intro i hi
    have hnext : i = s.nextId := by
      have : some s.nextId = some i := hi
      injection this
      omega
    subst hnext
    simp [BaseService.findOneByIdOrFail, BaseService.findOneOrFail,
      BaseRepository.findOneOrFail, BaseService.create, BaseRepository.create,
      EntityManager.save, BaseRepository.findOne, EntityManager.findOne, h,
      BaseRepository.CheckData.ofFindResult, BaseRepository.checkEntityExist]

/-- C2 witness: creating a concrete user in an empty store and re-fetching
it by its assigned identity. -/
theorem claim2_witness :
    ∃ e, (BaseService.create { rows := [], nextId := 1, now := 5 }
        { email := "a@x.com", password := "p", name := "A" }).1 = some e ∧
      (∀ i, e.id = some i →
          BaseService.findOneByIdOrFail "User"
            (BaseService.create { rows := [], nextId := 1, now := 5 }
              { email := "a@x.com", password := "p", name := "A" }).2 i
            = Except.ok e) ∧
      e.email = "a@x.com" ∧ e.password = "p" ∧ e.name = "A" ∧
      e.deletedAt = none ∧
      e.createdAt.isSome = true ∧ e.updatedAt.isSome = true :=
  claim2_create_roundtrip "User" { rows := [], nextId := 1, now := 5 }
    { email := "a@x.com", password := "p", name := "A" } (by decide) rfl

/-- Scoped identity matching unfolded. -/
theorem matchesInScope_id (id : Nat) (r : User) :
    EntityManager.matchesInScope { id := some id } r
      = (r.deletedAt.isNone && (r.id == some id)) := by
  simp [EntityManager.matchesInScope, User.visibleInDefaultScope, matches_id_filter]

/-- The state after `deleteOrFail` is the state after the underlying soft
delete, whether or not the check throws. -/
theorem deleteOrFail_snd (n : String) (s : Store) (w : FindOptionsWhere) :
    (BaseRepository.deleteOrFail n s w).2 = (BaseRepository.softDelete s w).2 := by
  simp only [BaseRepository.deleteOrFail]
  split <;> rfl

/-- The state after `restoreOrFail` is the state after the underlying
restore, whether or not the check throws. -/
theorem restoreOrFail_snd (n : String) (s : Store) (w : FindOptionsWhere) :
    (BaseRepository.restoreOrFail n s w).2 = (BaseRepository.restore s w).2 := by
  simp only [BaseRepository.restoreOrFail]
  split <;> rfl

/-- After a soft delete by identity, every row carrying that identity is
soft-deleted: either the delete marked it, or it was already outside the
delete's default-visible scope. -/
theorem softDelete_id_not_visible (s : Store) (id : Nat) (r' : User)
    (hr' : r' ∈ ((EntityManager.softDelete s { id := some id }).2).rows)
    (hid : (r'.id == some id) = true) : r'.deletedAt.isSome = true := by
  simp only [EntityManager.softDelete] at hr'
  rcases List.mem_map.mp hr' with ⟨r, hr, hfr⟩
  subst hfr
  by_cases hm : EntityManager.matchesInScope { id := some id } r = true
  · simp [if_pos hm]
  · rw [if_neg hm]
    rw [if_neg hm] at hid
    cases hd : r.deletedAt with
    | some v => rfl
    | none =>
      exact absurd (by simp [matchesInScope_id, hd, hid]) hm

/-- A soft delete by identity affects no row when every row carrying the
identity is already soft-deleted. -/
theorem countP_matchesInScope_zero (s' : Store) (id : Nat)
    (h : ∀ r ∈ s'.rows, (r.id == some id) = true → r.deletedAt.isSome = true) :
    s'.rows.countP (EntityManager.matchesInScope { id := some id }) = 0 := by
  apply List.countP_eq_zero.mpr
  intro r hr hm
  rw [matchesInScope_id] at hm
  rcases Bool.and_eq_true_iff.mp hm with ⟨hvis, hid⟩
  have := h r hr hid
  cases hd : r.deletedAt with
  | some v => rw [hd] at hvis; exact absurd hvis (by simp)
  | none => rw [hd] at this; exact absurd this (by simp)

/-- C6: `deleteOrFail({id})` on an existing, not-yet-deleted record
returns true; the record is excluded from a subsequent default `find()`;
and a second `deleteOrFail({id})` raises `EntityNotFound`, because the
already-soft-deleted record is excluded by the delete's default filter. -/
theorem claim6_deleteOrFail_then_again (n : String) (s : Store) (id : Nat)
    (h : ∃ r ∈ s.rows, r.id = some id ∧ r.deletedAt = none) :
    (BaseRepository.deleteOrFail n s { id := some id }).1 = Except.ok true ∧
    (∀ r ∈ BaseService.find (BaseRepository.deleteOrFail n s { id := some id }).2 {},
        ¬ r.id = some id) ∧
    (BaseRepository.deleteOrFail n
        (BaseRepository.deleteOrFail n s { id := some id }).2
        { id := some id }).1
      = Except.error (DbError.entityNotFound n) := by
  rcases h with ⟨r0, hr0, hid0, hdel0⟩
  have hmr0 : EntityManager.matchesInScope { id := some id } r0 = true := by
    simp [matchesInScope_id, hid0, hdel0]
  have hpos : (BaseRepository.softDelete s { id := some id }).1 ≠ 0 := by
    simp only [BaseRepository.softDelete, EntityManager.softDelete]
    intro hc
    exact absurd hmr0 (List.countP_eq_zero.mp hc r0 hr0)
  have hall : ∀ r ∈ ((BaseRepository.softDelete s { id := some id }).2).rows,
      (r.id == some id) = true → r.deletedAt.isSome = true := fun r hr =>
    softDelete_id_not_visible s id r hr
  refine ⟨?_, ?_, ?_⟩
  · simp only [BaseRepository.deleteOrFail]
    rw [checkEntityExist_num_pos n _ hpos]
  · rw [deleteOrFail_snd]
    intro r hrf hidr
    have hm := List.mem_filter.mp hrf
    have hvis : r.deletedAt.isNone = true := by
      have := hm.2
      simp [User.visibleInDefaultScope] at this
      simpa [User.visibleInDefaultScope]
    have hsome := hall r hm.1 (by simp [hidr])
    cases hd : r.deletedAt with
    | some v => rw [hd] at hvis; exact absurd hvis (by simp)
    | none => rw [hd] at hsome; exact absurd hsome (by simp)
  · rw [deleteOrFail_snd]
    have hz : (BaseRepository.softDelete
        (BaseRepository.softDelete s { id := some id }).2 { id := some id }).1 = 0 :=
      countP_matchesInScope_zero _ id hall
    simp only [BaseRepository.deleteOrFail]
    rw [hz]
    rfl

/-- C6 witness: one visible record of identity 1. -/
theorem claim6_witness :
    (BaseRepository.deleteOrFail "User"
        { rows := [{ id := some 1, email := "a@x.com", password := "p", name := "A" }],
          nextId := 2, now := 3 } { id := some 1 }).1 = Except.ok true ∧
    (∀ r ∈ BaseService.find (BaseRepository.deleteOrFail "User"
        { rows := [{ id := some 1, email := "a@x.com", password := "p", name := "A" }],
          nextId := 2, now := 3 } { id := some 1 }).2 {},
        ¬ r.id = some 1) ∧
    (BaseRepository.deleteOrFail "User"
        (BaseRepository.deleteOrFail "User"
          { rows := [{ id := some 1, email := "a@x.com", password := "p", name := "A" }],
            nextId := 2, now := 3 } { id := some 1 }).2
        { id := some 1 }).1
      = Except.error (DbError.entityNotFound "User") :=
  claim6_deleteOrFail_then_again "User"
    { rows := [{ id := some 1, email := "a@x.com", password := "p", name := "A" }],
      nextId := 2, now := 3 } 1 (by decide)

/-- C7: `restoreOrFail` on a record that was never deleted (already
restored) raises `EntityNotFound`: the restore filter matches no record
whose `deletedAt` is non-null. -/
theorem claim7_restoreOrFail_never_deleted (n : String) (s : Store) (id : Nat)
    (_hex : ∃ r ∈ s.rows, r.id = some id ∧ r.deletedAt = none)
    (h : ∀ r ∈ s.rows, r.id = some id → r.deletedAt = none) :
    (BaseRepository.restoreOrFail n s { id := some id }).1
      = Except.error (DbError.entityNotFound n) := by
  have hz : (BaseRepository.restore s { id := some id }).1 = 0 := by
    apply List.countP_eq_zero.mpr
    intro r hr hm
    have hm' : r.deletedAt.isSome = true ∧ r.id = some id := by
      simpa [EntityManager.restoreMatches, matches_id_filter] using hm
    have hdel := h r hr hm'.2
    have hsome := hm'.1
    rw [hdel] at hsome
    exact absurd hsome (by simp)
  simp only [BaseRepository.restoreOrFail]
  rw [hz]
  rfl

/-- C7 witness: restoring a never-deleted record of identity 1. -/
theorem claim7_witness :
    (BaseRepository.restoreOrFail "User"
        { rows := [{ id := some 1, email := "a@x.com", password := "p", name := "A" }],
          nextId := 2, now := 3 } { id := some 1 }).1
      = Except.error (DbError.entityNotFound "User") :=
  claim7_restoreOrFail_never_deleted "User"
    { rows := [{ id := some 1, email := "a@x.com", password := "p", name := "A" }],
      nextId := 2, now := 3 } 1 (by decide) (by decide)

/-- C8: on an existing, not-yet-deleted record, `deleteById(id)` followed
by `restoreById(id)` both succeed and yield a record of that identity
whose `deletedAt` is null, and that record reappears in the results of a
default `find()`. -/
theorem claim8_delete_restore_roundtrip (n : String) (s : Store) (id : Nat)
    (h : ∃ r ∈ s.rows, r.id = some id ∧ r.deletedAt = none) :
    (BaseService.deleteById n s id).1 = Except.ok true ∧
    (BaseService.restoreById n (BaseService.deleteById n s id).2 id).1
      = Except.ok true ∧
    ∃ r', r' ∈ BaseService.find
          (BaseService.restoreById n (BaseService.deleteById n s id).2 id).2 {} ∧
        r'.id = some id ∧ r'.deletedAt = none := by
  rcases h with ⟨r0, hr0, hid0, hdel0⟩
  have hmr0 : EntityManager.matchesInScope { id := some id } r0 = true := by
    simp [matchesInScope_id, hid0, hdel0]
  have hpos : (BaseRepository.softDelete s { id := some id }).1 ≠ 0 := by
    simp only [BaseRepository.softDelete, EntityManager.softDelete]
    intro hc
    exact absurd hmr0 (List.countP_eq_zero.mp hc r0 hr0)
  have hs1 : (BaseService.deleteById n s id).2
      = (EntityManager.softDelete s { id := some id }).2 :=
    deleteOrFail_snd n s { id := some id }
  have hr1 : ({ r0 with deletedAt := some s.now } : User)
      ∈ ((EntityManager.softDelete s { id := some id }).2).rows := by
    simp only [EntityManager.softDelete]
    exact List.mem_map.mpr ⟨r0, hr0, by rw [if_pos hmr0]⟩
  have hrm1 : EntityManager.restoreMatches { id := some id }
      { r0 with deletedAt := some s.now } = true := by
    simp [EntityManager.restoreMatches, matches_id_filter, hid0]
  have hpos2 : (BaseRepository.restore
      (EntityManager.softDelete s { id := some id }).2 { id := some id }).1 ≠ 0 := by
    simp only [BaseRepository.restore, EntityManager.restore]
    intro hc
    exact absurd hrm1 (List.countP_eq_zero.mp hc _ hr1)
  refine ⟨?_, ?_, ?_⟩
  · simp only [BaseService.deleteById, BaseRepository.deleteOrFail]
    rw [checkEntityExist_num_pos n _ hpos]
  · simp only [BaseService.restoreById, BaseRepository.restoreOrFail, hs1]
    rw [checkEntityExist_num_pos n _ hpos2]
  · refine ⟨{ r0 with deletedAt := none }, ?_, hid0, rfl⟩
    have hs2 : (BaseService.restoreById n (BaseService.deleteById n s id).2 id).2
        = (EntityManager.restore
            (EntityManager.softDelete s { id := some id }).2 { id := some id }).2 := by
      rw [hs1]
      exact restoreOrFail_snd n _ { id := some id }
    rw [hs2]
    have hr2 : ({ r0 with deletedAt := none } : User)
        ∈ ((EntityManager.restore
            (EntityManager.softDelete s { id := some id }).2 { id := some id }).2).rows := by
      simp only [EntityManager.restore]
      exact List.mem_map.mpr ⟨{ r0 with deletedAt := some s.now }, hr1,
        by rw [if_pos hrm1]⟩
    apply List.mem_filter.mpr
    exact ⟨hr2, by simp [User.visibleInDefaultScope]⟩

/-- C8 witness: the round trip on a store holding one visible record of
identity 1. -/
theorem claim8_witness :
    (BaseService.deleteById "User"
        { rows := [{ id := some 1, email := "a@x.com", password := "p", name := "A" }],
          nextId := 2, now := 3 } 1).1 = Except.ok true ∧
    (BaseService.restoreById "User"
        (BaseService.deleteById "User"
          { rows := [{ id := some 1, email := "a@x.com", password := "p", name := "A" }],
            nextId := 2, now := 3 } 1).2 1).1 = Except.ok true ∧
    ∃ r', r' ∈ BaseService.find
          (BaseService.restoreById "User"
            (BaseService.deleteById "User"
              { rows := [{ id := some 1, email := "a@x.com", password := "p", name := "A" }],
                nextId := 2, now := 3 } 1).2 1).2 {} ∧
        r'.id = some 1 ∧ r'.deletedAt = none :=
  claim8_delete_restore_roundtrip "User"
    { rows := [{ id := some 1, email := "a@x.com", password := "p", name := "A" }],
      nextId := 2, now := 3 } 1 (by decide)
